import Mathlib

/-!
Shallow embedding of the real-time conversation subsystem of the
gharbetibaa backend (chat controller, conversation schema, socket service),
together with proofs about the behaviour of its operations.

Source files embedded:
- `src/controllers/chat.controller.js` (getConversations, getMessages,
  markMessagesAsRead, startConversation)
- `src/services/socket.service.js` (the `send_message` handler)
- the Conversation mongoose schema (participants, lastMessage, propertyId)

User ids and property ids are modelled as `String`; conversation and
message ids as `Nat` (Mongo ObjectIds are opaque identities: all the code
does with them is compare for equality).  The document store is modelled
as lists kept in insertion (natural) order; `findOne` is first match in
natural order; timestamps come from a logical clock that advances on every
write, which reflects mongoose `timestamps: true` / `Date.now()` assigning
non-decreasing (here strictly increasing) creation times.
-/

namespace Gharbeti

/-- The denormalized `lastMessage` subdocument of the Conversation schema. -/
structure LastMessage where
  content : String
  sender : String
  createdAt : Nat
deriving DecidableEq

/-- A Conversation document (conversationSchema: participants, lastMessage,
propertyId; `id` is the Mongo `_id`). -/
structure Conversation where
  id : Nat
  participants : List String
  propertyId : Option String
  lastMessage : Option LastMessage
deriving DecidableEq

/-- A Message document (conversationId, sender, content, readBy, and the
`createdAt` timestamp assigned by the store). -/
structure Message where
  id : Nat
  conversationId : Nat
  sender : String
  content : String
  readBy : List String
  createdAt : Nat
deriving DecidableEq

/-- The persistent store: the Conversation and Message collections in
natural (insertion) order, the next fresh ids, and the logical clock. -/
structure ChatState where
  conversations : List Conversation
  messages : List Message
  nextConvId : Nat
  nextMsgId : Nat
  clock : Nat
deriving DecidableEq

/-- The empty store. -/
def initialState : ChatState :=
  { conversations := [], messages := [], nextConvId := 0, nextMsgId := 0, clock := 0 }

/-- Mongo `$all`: the field array `ps` contains every element of `xs`. -/
def containsAll (ps : List String) (xs : List String) : Bool :=
  xs.all (fun x => ps.contains x)

/-- The query built by `startConversation` (chat.controller.js lines
128-137): `participants: \x7b $all: [req.user.id, recipientId] \x7d`, plus
`propertyId` only when a property id was provided. -/
def convMatches (userId recipientId : String) (propertyId : Option String)
    (c : Conversation) : Bool :=
  containsAll c.participants [userId, recipientId] &&
    (match propertyId with
     | none => true
     | some p => c.propertyId == some p)

/-- `Conversation.findOne(query)`: first match in natural order. -/
def findOneConv (s : ChatState) (userId recipientId : String)
    (propertyId : Option String) : Option Conversation :=
  s.conversations.find? (convMatches userId recipientId propertyId)

/-- `startConversation` (chat.controller.js lines 118-163): look up an
existing conversation between the two users (scoped to `propertyId` when
provided); if none exists, create one whose `lastMessage` summary is the
synthetic `"Conversation started"` snapshot.  Returns the conversation
handed back to the client together with the updated store. -/
def startConversation (s : ChatState) (userId recipientId : String)
    (propertyId : Option String) : Conversation × ChatState :=
  match findOneConv s userId recipientId propertyId with
  | some c => (c, s)
  | none =>
      let c : Conversation :=
        { id := s.nextConvId
          participants := [userId, recipientId]
          propertyId := propertyId
          lastMessage := some
            { content := "Conversation started"
              sender := userId
              createdAt := s.clock } }
      (c, { s with
              conversations := s.conversations ++ [c]
              nextConvId := s.nextConvId + 1
              clock := s.clock + 1 })

/-- Modelled from the spec: the Message mongoose model (`models/Message.js`)
is not among the provided sources; only its callers are.  Per the spec,
`append` "fails with `ValidationError` if `content` is empty; otherwise
creates a Message with `readBy = \x7bsenderId\x7d` and a server-assigned
timestamp".  The `readBy := [senderId]` argument is in fact passed
explicitly by the caller (socket.service.js line 30); the empty-content
rejection and the server timestamp are the schema's. -/
def messageCreate (s : ChatState) (conversationId : Nat)
    (senderId content : String) : Option (Message × ChatState) :=
  if content = "" then none
  else
    let m : Message :=
      { id := s.nextMsgId
        conversationId := conversationId
        sender := senderId
        content := content
        readBy := [senderId]
        createdAt := s.clock }
    some (m, { s with
                 messages := s.messages ++ [m]
                 nextMsgId := s.nextMsgId + 1
                 clock := s.clock + 1 })

/-- `Conversation.findByIdAndUpdate(conversationId, \x7b lastMessage: ... \x7d)`
(socket.service.js lines 37-43): overwrite the summary of the matching
conversation; a no-op when no conversation has that id. -/
def updateLastMessage (s : ChatState) (conversationId : Nat)
    (content sender : String) (t : Nat) : ChatState :=
  { s with
      conversations := s.conversations.map (fun c =>
        if c.id = conversationId then
          { c with lastMessage := some { content := content, sender := sender, createdAt := t } }
        else c) }

/-- Observable steps of the `send_message` handler, in execution order. -/
inductive SendEvent where
  | append (m : Message)
  | updateLast (conversationId : Nat) (lm : LastMessage)
  | broadcast (room : Nat) (m : Message)
deriving DecidableEq

/-- The socket `send_message` handler (socket.service.js lines 20-59):
create the message, update the conversation's `lastMessage`, then emit
`receive_message` to the conversation room.  The whole body sits in a
`try/catch` that logs and swallows every error, so a failing
`Message.create` yields no further step, and a failing emit (modelled by
`broadcastOk = false`) loses only the broadcast, never the persisted
state.  No participant-membership check appears anywhere in the handler.
Returns the final store and the trace of performed steps. -/
def send_message (s : ChatState) (conversationId : Nat)
    (senderId content : String) (broadcastOk : Bool) :
    ChatState × List SendEvent :=
  match messageCreate s conversationId senderId content with
  | none => (s, [])
  | some (m, s1) =>
      let lm : LastMessage :=
        { content := content, sender := senderId, createdAt := s1.clock }
      let s2 := updateLastMessage s1 conversationId content senderId s1.clock
      if broadcastOk then
        (s2, [SendEvent.append m, SendEvent.updateLast conversationId lm,
              SendEvent.broadcast conversationId m])
      else
        (s2, [SendEvent.append m, SendEvent.updateLast conversationId lm])

/-- Stable insertion of a message into a list sorted by `createdAt`. -/
def insertByTime (m : Message) : List Message → List Message
  | [] => [m]
  | x :: xs =>
      if m.createdAt ≤ x.createdAt then m :: x :: xs
      else x :: insertByTime m xs

/-- `.sort(\x7b createdAt: 1 \x7d)`: stable sort, oldest first. -/
def sortByCreatedAt (l : List Message) : List Message :=
  l.foldr insertByTime []

/-- `Message.find(\x7b conversationId \x7d).sort(\x7b createdAt: 1 \x7d)`
(chat.controller.js lines 64-65). -/
def listByConversation (s : ChatState) (conversationId : Nat) : List Message :=
  sortByCreatedAt (s.messages.filter (fun m => m.conversationId == conversationId))

/-- `Message.countDocuments` filter used by `getConversations`
(chat.controller.js lines 23-27): messages of the conversation not sent by
the user and not read by the user (`$ne` on the array `readBy` means the
array does not contain the value). -/
def unreadCount (s : ChatState) (conversationId : Nat) (userId : String) : Nat :=
  (s.messages.filter (fun m =>
    m.conversationId == conversationId && m.sender != userId &&
      !(m.readBy.contains userId))).length

/-- The participant-scoped lookup `Conversation.findOne(\x7b _id, participants:
req.user.id \x7d)` shared by `getMessages` and `markMessagesAsRead`. -/
def findConvAuth (s : ChatState) (conversationId : Nat) (userId : String) :
    Option Conversation :=
  s.conversations.find? (fun c =>
    c.id == conversationId && c.participants.contains userId)

/-- Outcome of a request/response handler: success payload, or a structured
failure with an HTTP status and message. -/
inductive ApiResult (α : Type) where
  | ok (value : α)
  | err (status : Nat) (message : String)
deriving DecidableEq

/-- `getMessages` (chat.controller.js lines 48-72): 404 with
`'Conversation not found or unauthorized'` unless the conversation exists
and the caller is a participant; otherwise the chronological message list. -/
def getMessages (s : ChatState) (conversationId : Nat) (userId : String) :
    ApiResult (List Message) :=
  match findConvAuth s conversationId userId with
  | none => ApiResult.err 404 "Conversation not found or unauthorized"
  | some _ => ApiResult.ok (listByConversation s conversationId)

/-- The `$addToSet` update applied by `markMessagesAsRead` to each message
matching `\x7b conversationId, readBy: \x7b $ne: userId \x7d \x7d`. -/
def markReadApply (userId : String) (conversationId : Nat) (m : Message) : Message :=
  if m.conversationId == conversationId && !(m.readBy.contains userId) then
    { m with readBy := m.readBy ++ [userId] }
  else m

/-- The `Message.updateMany` call of `markMessagesAsRead`
(chat.controller.js lines 96-104), returning the updated store and Mongo's
`modifiedCount`. -/
def markReadUpdate (s : ChatState) (conversationId : Nat) (userId : String) :
    ChatState × Nat :=
  ({ s with messages := s.messages.map (markReadApply userId conversationId) },
   (s.messages.filter (fun m =>
      m.conversationId == conversationId && !(m.readBy.contains userId))).length)

/-- `markMessagesAsRead` (chat.controller.js lines 79-111): participant
check, then `updateMany`; answers with `modifiedCount`. -/
def markMessagesAsRead (s : ChatState) (conversationId : Nat) (userId : String) :
    ChatState × ApiResult Nat :=
  match findConvAuth s conversationId userId with
  | none => (s, ApiResult.err 404 "Conversation not found or unauthorized")
  | some _ =>
      let r := markReadUpdate s conversationId userId
      (r.1, ApiResult.ok r.2)

/-- The state-mutating operations of the subsystem, for reachability. -/
inductive ChatOp where
  | start (userId recipientId : String) (propertyId : Option String)
  | send (conversationId : Nat) (senderId content : String) (broadcastOk : Bool)
  | markRead (conversationId : Nat) (userId : String)
deriving DecidableEq

/-- Apply one operation to the store (read-only endpoints do not mutate). -/
def applyOp (s : ChatState) : ChatOp → ChatState
  | ChatOp.start u r p => (startConversation s u r p).2
  | ChatOp.send cid u content b => (send_message s cid u content b).1
  | ChatOp.markRead cid u => (markMessagesAsRead s cid u).1

/-- The store reached by running a sequence of operations from empty. -/
def execOps (ops : List ChatOp) : ChatState :=
  ops.foldl applyOp initialState

end Gharbeti


namespace Gharbeti

/-! ### Helper lemmas about queries -/

/-- `find?` only depends on the pointwise behaviour of the predicate. -/
lemma find?_congrFun {α : Type} {p q : α → Bool} (h : ∀ a, p a = q a) :
    ∀ l : List α, l.find? p = l.find? q
  | [] => rfl
  | a :: l => by
      simp only [List.find?]
      rw [h a]
      cases q a
      · exact find?_congrFun h l
      · rfl

lemma containsAll_pair (ps : List String) (u r : String) :
    containsAll ps [u, r] = (ps.contains u && ps.contains r) := by
  simp [containsAll]

lemma convMatches_swap (u r : String) (p : Option String) (c : Conversation) :
    convMatches r u p c = convMatches u r p c := by
  unfold convMatches
  rw [containsAll_pair, containsAll_pair, Bool.and_comm (c.participants.contains r)]

lemma findOneConv_swap (s : ChatState) (u r : String) (p : Option String) :
    findOneConv s r u p = findOneConv s u r p :=
  find?_congrFun (fun c => convMatches_swap u r p c) s.conversations

lemma findOneConv_none_iff (s : ChatState) (u r : String) (p : Option String) :
    findOneConv s u r p = none ↔
      ∀ c ∈ s.conversations, convMatches u r p c = false := by
  simp [findOneConv, List.find?_eq_none]

/-- If no conversation at all contains both users, no scoped query matches either. -/
lemma findOneConv_none_scoped (s : ChatState) (u r : String)
    (h : findOneConv s u r none = none) (p : Option String) :
    findOneConv s u r p = none := by
  rw [findOneConv_none_iff] at h ⊢
  intro c hc
  have := h c hc
  cases p with
  | none => exact this
  | some q =>
      simp only [convMatches] at this ⊢
      cases hca : containsAll c.participants [u, r]
      · simp
      · rw [hca] at this; simp at this

lemma convMatches_new (u r : String) (p : Option String) (n t : Nat) :
    convMatches u r p
      { id := n, participants := [u, r], propertyId := p,
        lastMessage := some { content := "Conversation started", sender := u, createdAt := t } }
      = true := by
  cases p <;> simp [convMatches, containsAll]

/-- Two consecutive unscoped `startConversation` calls for the same pair
return the same conversation without touching the store, in either argument
order for the second call. -/
lemma startConversation_idem (s : ChatState) (A B : String) (c : Conversation)
    (s' : ChatState) (heq : startConversation s A B none = (c, s')) :
    startConversation s' A B none = (c, s') ∧
    startConversation s' B A none = (c, s') := by
  cases h : findOneConv s A B none with
  | some c0 =>
      simp only [startConversation, h, Prod.mk.injEq] at heq
      obtain ⟨rfl, rfl⟩ := heq
      have hswap : findOneConv s B A none = some c0 := by
        rw [findOneConv_swap]; exact h
      constructor <;> simp [startConversation, h, hswap]
  | none =>
      simp only [startConversation, h, Prod.mk.injEq] at heq
      obtain ⟨hc, hs⟩ := heq
      have hconv : s'.conversations = s.conversations ++ [c] := by
        rw [← hs, ← hc]
      have hmatch : convMatches A B none c = true := by
        rw [← hc]; exact convMatches_new A B none s.nextConvId s.clock
      have hfound : ∀ u r : String,
          (∀ x : Conversation, convMatches u r none x = convMatches A B none x) →
          findOneConv s' u r none = some c := by
        intro u r hpt
        unfold findOneConv
        rw [hconv, List.find?_append, find?_congrFun hpt s.conversations]
        have h0 : s.conversations.find? (convMatches A B none) = none := h
        rw [h0]
        have hm : convMatches u r none c = true := by rw [hpt]; exact hmatch
        simp [hm]
      constructor
      · have h1 := hfound A B (fun _ => rfl)
        simp [startConversation, h1]
      · have h2 := hfound B A (fun x => convMatches_swap A B none x)
        simp [startConversation, h2]


/-! ### Uniqueness of conversations per participant set and scope -/

/-- Two conversations cover the same unordered participant set. -/
def sameParticipants (c1 c2 : Conversation) : Prop :=
  ∀ x : String, x ∈ c1.participants ↔ x ∈ c2.participants

/-- Key-uniqueness invariant: no two distinct conversations in the
directory share both the participant set and the scope. -/
def convKeyInv (s : ChatState) : Prop :=
  s.conversations.Pairwise
    (fun c1 c2 => ¬(sameParticipants c1 c2 ∧ c1.propertyId = c2.propertyId))

lemma convKeyInv_initial : convKeyInv initialState :=
  List.Pairwise.nil

lemma contains_eq_true_iff (l : List String) (x : String) :
    l.contains x = true ↔ x ∈ l := by
  simp

lemma convMatches_of_mem (u r : String) (p : Option String) (c : Conversation)
    (hu : u ∈ c.participants) (hr : r ∈ c.participants)
    (hp : c.propertyId = p) : convMatches u r p c = true := by
  unfold convMatches
  rw [containsAll_pair, (contains_eq_true_iff _ _).mpr hu,
      (contains_eq_true_iff _ _).mpr hr]
  cases p with
  | none => rfl
  | some q => simp [hp]

lemma convKeyInv_start (s : ChatState) (u r : String) (p : Option String)
    (hinv : convKeyInv s) : convKeyInv (startConversation s u r p).2 := by
  cases h : findOneConv s u r p with
  | some c => simp only [startConversation, h]; exact hinv
  | none =>
      have hall := (findOneConv_none_iff s u r p).mp h
      simp only [startConversation, h]
      unfold convKeyInv at hinv ⊢
      rw [List.pairwise_append]
      refine ⟨hinv, List.pairwise_singleton _ _, ?_⟩
      intro a ha b hb
      rw [List.mem_singleton] at hb
      subst hb
      intro hk
      obtain ⟨hsp, hpe⟩ := hk
      have hu : u ∈ a.participants := by
        rw [hsp u]; simp
      have hr : r ∈ a.participants := by
        rw [hsp r]; simp
      have hp : a.propertyId = p := hpe
      have := hall a ha
      rw [convMatches_of_mem u r p a hu hr hp] at this
      exact Bool.true_eq_false.mp this

lemma updateLast_preserves (cid : Nat) (content sender : String) (t : Nat)
    (c : Conversation) :
    ((fun c : Conversation => if c.id = cid then
        { c with lastMessage := some { content := content, sender := sender, createdAt := t } }
      else c) c).participants = c.participants ∧
    ((fun c : Conversation => if c.id = cid then
        { c with lastMessage := some { content := content, sender := sender, createdAt := t } }
      else c) c).propertyId = c.propertyId := by
  by_cases hc : c.id = cid <;> simp [hc]

lemma convKeyInv_send (s : ChatState) (cid : Nat) (u content : String) (b : Bool)
    (hinv : convKeyInv s) : convKeyInv (send_message s cid u content b).1 := by
  cases hmc : messageCreate s cid u content with
  | none => simp only [send_message, hmc]; exact hinv
  | some r =>
      obtain ⟨m, s1⟩ := r
      have hs1 : s1.conversations = s.conversations := by
        simp only [messageCreate] at hmc
        by_cases hct : content = ""
        · simp [hct] at hmc
        · simp only [if_neg hct, Option.some.injEq, Prod.mk.injEq] at hmc
          rw [← hmc.2]
      have hmap : convKeyInv (updateLastMessage s1 cid content u s1.clock) := by
        unfold convKeyInv updateLastMessage
        rw [hs1]
        refine List.Pairwise.map _ ?_ hinv
        intro a c hac hk
        apply hac
        obtain ⟨hsp, hpe⟩ := hk
        obtain ⟨hpa, hqa⟩ := updateLast_preserves cid content u s1.clock a
        obtain ⟨hpc, hqc⟩ := updateLast_preserves cid content u s1.clock c
        refine ⟨?_, ?_⟩
        · intro x
          rw [← hpa, ← hpc]
          exact hsp x
        · rw [← hqa, ← hqc]
          exact hpe
      simp only [send_message, hmc]
      by_cases hb : b = true <;> simp [hb] <;> exact hmap

lemma conversations_markRead (s : ChatState) (cid : Nat) (u : String) :
    (markMessagesAsRead s cid u).1.conversations = s.conversations := by
  unfold markMessagesAsRead
  cases h : findConvAuth s cid u <;> simp [h, markReadUpdate]

lemma convKeyInv_applyOp (s : ChatState) (op : ChatOp)
    (hinv : convKeyInv s) : convKeyInv (applyOp s op) := by
  cases op with
  | start u r p => exact convKeyInv_start s u r p hinv
  | send cid u content b => exact convKeyInv_send s cid u content b hinv
  | markRead cid u =>
      unfold convKeyInv
      show ((markMessagesAsRead s cid u).1).conversations.Pairwise _
      rw [conversations_markRead]
      exact hinv

lemma convKeyInv_foldl (ops : List ChatOp) :
    ∀ s : ChatState, convKeyInv s → convKeyInv (ops.foldl applyOp s) := by
  induction ops with
  | nil => intro s h; exact h
  | cons op ops ih =>
      intro s h
      exact ih (applyOp s op) (convKeyInv_applyOp s op h)

lemma convKeyInv_execOps (ops : List ChatOp) : convKeyInv (execOps ops) :=
  convKeyInv_foldl ops initialState convKeyInv_initial


/-! ### Time ordering of the message store -/

/-- Messages sit in the store in strictly increasing creation order, all
older than the clock. -/
def timeOrdered (s : ChatState) : Prop :=
  s.messages.Pairwise (fun a b => a.createdAt < b.createdAt) ∧
  ∀ m ∈ s.messages, m.createdAt < s.clock

lemma timeOrdered_initial : timeOrdered initialState :=
  ⟨List.Pairwise.nil, by intro m hm; simp [initialState] at hm⟩

lemma timeOrdered_start (s : ChatState) (u r : String) (p : Option String)
    (h : timeOrdered s) : timeOrdered (startConversation s u r p).2 := by
  cases hf : findOneConv s u r p with
  | some c => simp only [startConversation, hf]; exact h
  | none =>
      simp only [startConversation, hf]
      exact ⟨h.1, fun m hm => Nat.lt_succ_of_lt (h.2 m hm)⟩

lemma pairwise_lt_append_clock {s : ChatState} (h : timeOrdered s) (m : Message)
    (hm : s.clock ≤ m.createdAt) :
    (s.messages ++ [m]).Pairwise (fun a b => a.createdAt < b.createdAt) := by
  rw [List.pairwise_append]
  refine ⟨h.1, List.pairwise_singleton _ _, ?_⟩
  intro a ha b hb
  rw [List.mem_singleton] at hb
  subst hb
  exact Nat.lt_of_lt_of_le (h.2 a ha) hm

lemma bound_append_clock {s : ChatState} (h : timeOrdered s) (m : Message) {t : Nat}
    (hm : m.createdAt < t) (hs : s.clock ≤ t) :
    ∀ x ∈ s.messages ++ [m], x.createdAt < t := by
  intro x hx
  rw [List.mem_append] at hx
  cases hx with
  | inl hx => exact Nat.lt_of_lt_of_le (h.2 x hx) hs
  | inr hx => rw [List.mem_singleton] at hx; subst hx; exact hm

lemma timeOrdered_send (s : ChatState) (cid : Nat) (u content : String) (b : Bool)
    (h : timeOrdered s) : timeOrdered (send_message s cid u content b).1 := by
  cases hmc : messageCreate s cid u content with
  | none => simp only [send_message, hmc]; exact h
  | some r =>
      obtain ⟨m, s1⟩ := r
      by_cases hct : content = ""
      · simp [messageCreate, hct] at hmc
      · simp only [messageCreate, if_neg hct, Option.some.injEq, Prod.mk.injEq] at hmc
        obtain ⟨hm, hs⟩ := hmc
        subst hm
        subst hs
        have hgoal : timeOrdered (updateLastMessage
            { s with
                messages := s.messages ++
                  [{ id := s.nextMsgId, conversationId := cid, sender := u,
                     content := content, readBy := [u], createdAt := s.clock }]
                nextMsgId := s.nextMsgId + 1
                clock := s.clock + 1 } cid content u (s.clock + 1)) :=
          ⟨pairwise_lt_append_clock h _ (le_refl s.clock),
           bound_append_clock h _ (Nat.lt_succ_self s.clock) (Nat.le_succ s.clock)⟩
        cases b <;> simp only [send_message, messageCreate, if_neg hct] <;> exact hgoal

lemma markReadApply_createdAt (u : String) (cid : Nat) (m : Message) :
    (markReadApply u cid m).createdAt = m.createdAt := by
  unfold markReadApply; split <;> rfl

lemma markReadApply_conversationId (u : String) (cid : Nat) (m : Message) :
    (markReadApply u cid m).conversationId = m.conversationId := by
  unfold markReadApply; split <;> rfl

lemma timeOrdered_markRead (s : ChatState) (cid : Nat) (u : String)
    (h : timeOrdered s) : timeOrdered (markMessagesAsRead s cid u).1 := by
  cases hf : findConvAuth s cid u with
  | none => simp only [markMessagesAsRead, hf]; exact h
  | some c =>
      simp only [markMessagesAsRead, hf, markReadUpdate]
      constructor
      · refine List.Pairwise.map _ ?_ h.1
        intro a b hab
        rw [markReadApply_createdAt, markReadApply_createdAt]
        exact hab
      · intro m hm
        obtain ⟨m0, hm0, rfl⟩ := List.mem_map.mp hm
        rw [markReadApply_createdAt]
        exact h.2 m0 hm0

lemma timeOrdered_applyOp (s : ChatState) (op : ChatOp)
    (h : timeOrdered s) : timeOrdered (applyOp s op) := by
  cases op with
  | start u r p => exact timeOrdered_start s u r p h
  | send cid u content b => exact timeOrdered_send s cid u content b h
  | markRead cid u => exact timeOrdered_markRead s cid u h

lemma timeOrdered_foldl (ops : List ChatOp) :
    ∀ s : ChatState, timeOrdered s → timeOrdered (ops.foldl applyOp s) := by
  induction ops with
  | nil => intro s h; exact h
  | cons op ops ih => intro s h; exact ih (applyOp s op) (timeOrdered_applyOp s op h)

lemma timeOrdered_execOps (ops : List ChatOp) : timeOrdered (execOps ops) :=
  timeOrdered_foldl ops initialState timeOrdered_initial

/-! ### The stable sort is the identity on already-sorted lists -/

lemma insertByTime_of_le (m : Message) (l : List Message)
    (hle : ∀ x ∈ l, m.createdAt ≤ x.createdAt) : insertByTime m l = m :: l := by
  cases l with
  | nil => rfl
  | cons x xs =>
      unfold insertByTime
      rw [if_pos (hle x (List.mem_cons_self x xs))]

lemma sortByCreatedAt_eq_self (l : List Message)
    (h : l.Pairwise (fun a b => a.createdAt ≤ b.createdAt)) :
    sortByCreatedAt l = l := by
  induction l with
  | nil => rfl
  | cons a l ih =>
      rw [List.pairwise_cons] at h
      show insertByTime a (List.foldr insertByTime [] l) = a :: l
      rw [show List.foldr insertByTime [] l = sortByCreatedAt l from rfl, ih h.2]
      exact insertByTime_of_le a l h.1

/-! ### Sender-read invariant over reachable states -/

lemma senderRead_start (s : ChatState) (u r : String) (p : Option String)
    (h : ∀ m ∈ s.messages, m.sender ∈ m.readBy) :
    ∀ m ∈ (startConversation s u r p).2.messages, m.sender ∈ m.readBy := by
  cases hf : findOneConv s u r p <;> simp only [startConversation, hf] <;> exact h

lemma senderRead_send (s : ChatState) (cid : Nat) (u content : String) (b : Bool)
    (h : ∀ m ∈ s.messages, m.sender ∈ m.readBy) :
    ∀ m ∈ (send_message s cid u content b).1.messages, m.sender ∈ m.readBy := by
  cases hmc : messageCreate s cid u content with
  | none => simp only [send_message, hmc]; exact h
  | some r =>
      obtain ⟨m, s1⟩ := r
      by_cases hct : content = ""
      · simp [messageCreate, hct] at hmc
      · simp only [messageCreate, if_neg hct, Option.some.injEq, Prod.mk.injEq] at hmc
        obtain ⟨hm, hs⟩ := hmc
        subst hm
        subst hs
        have hgoal : ∀ m' ∈ s.messages ++
            [{ id := s.nextMsgId, conversationId := cid, sender := u,
               content := content, readBy := [u], createdAt := s.clock : Message }],
            m'.sender ∈ m'.readBy := by
          intro m' hm'
          rw [List.mem_append] at hm'
          cases hm' with
          | inl hm' => exact h m' hm'
          | inr hm' =>
              rw [List.mem_singleton] at hm'
              subst hm'
              exact List.mem_singleton.mpr rfl
        cases b <;> simp only [send_message, messageCreate, if_neg hct] <;> exact hgoal

lemma senderRead_markRead (s : ChatState) (cid : Nat) (u : String)
    (h : ∀ m ∈ s.messages, m.sender ∈ m.readBy) :
    ∀ m ∈ (markMessagesAsRead s cid u).1.messages, m.sender ∈ m.readBy := by
  cases hf : findConvAuth s cid u with
  | none => simp only [markMessagesAsRead, hf]; exact h
  | some c =>
      simp only [markMessagesAsRead, hf, markReadUpdate]
      intro m hm
      obtain ⟨m0, hm0, rfl⟩ := List.mem_map.mp hm
      unfold markReadApply
      split
      · exact List.mem_append_left _ (h m0 hm0)
      · exact h m0 hm0

lemma senderRead_applyOp (s : ChatState) (op : ChatOp)
    (h : ∀ m ∈ s.messages, m.sender ∈ m.readBy) :
    ∀ m ∈ (applyOp s op).messages, m.sender ∈ m.readBy := by
  cases op with
  | start u r p => exact senderRead_start s u r p h
  | send cid u content b => exact senderRead_send s cid u content b h
  | markRead cid u => exact senderRead_markRead s cid u h

lemma senderRead_foldl (ops : List ChatOp) :
    ∀ s : ChatState, (∀ m ∈ s.messages, m.sender ∈ m.readBy) →
      ∀ m ∈ (ops.foldl applyOp s).messages, m.sender ∈ m.readBy := by
  induction ops with
  | nil => intro s h; exact h
  | cons op ops ih => intro s h; exact ih (applyOp s op) (senderRead_applyOp s op h)

/-- Every message in any reachable store carries its sender in `readBy`. -/
lemma senderRead_execOps (ops : List ChatOp) :
    ∀ m ∈ (execOps ops).messages, m.sender ∈ m.readBy :=
  senderRead_foldl ops initialState (by intro m hm; simp [initialState] at hm)


/-! ### Example run used by witnesses -/

/-- A small concrete run: a conversation is started and each participant
sends one message. -/
def exOps : List ChatOp :=
  [ChatOp.start "A" "B" none, ChatOp.send 0 "A" "m1" true,
   ChatOp.send 0 "B" "m2" true]

/-! ### Claim C6 -/

/-- C6: two unscoped `startConversation(A, B)` calls resolve to the same
conversation id, and a third call `startConversation(B, A)` with reversed
argument order also resolves to that same id; moreover, in every reachable
store at most one conversation exists per unordered participant set and
scope (`propertyId`) pair. -/
theorem c6_idempotent_creation (ops : List ChatOp) (A B : String) :
    ((startConversation (startConversation (execOps ops) A B none).2 A B none).1.id
       = (startConversation (execOps ops) A B none).1.id ∧
     (startConversation (startConversation (startConversation (execOps ops) A B none).2
        A B none).2 B A none).1.id
       = (startConversation (execOps ops) A B none).1.id) ∧
    (∀ c1 ∈ (execOps ops).conversations, ∀ c2 ∈ (execOps ops).conversations,
       sameParticipants c1 c2 → c1.propertyId = c2.propertyId → c1 = c2) := by
  have hid := startConversation_idem (execOps ops) A B
      (startConversation (execOps ops) A B none).1
      (startConversation (execOps ops) A B none).2 rfl
  constructor
  · constructor
    · rw [hid.1]
    · rw [hid.1]
      show (startConversation (startConversation (execOps ops) A B none).2 B A none).1.id
        = (startConversation (execOps ops) A B none).1.id
      rw [hid.2]
  · intro c1 hc1 c2 hc2 hsp hpe
    have hinv : (execOps ops).conversations.Pairwise
        (fun a b => ¬(sameParticipants a b ∧ a.propertyId = b.propertyId)) :=
      convKeyInv_execOps ops
    by_cases he : c1 = c2
    · exact he
    · have hsymm : Symmetric
          (fun a b : Conversation => ¬(sameParticipants a b ∧ a.propertyId = b.propertyId)) := by
        intro a b hab hk
        exact hab ⟨fun x => (hk.1 x).symm, hk.2.symm⟩
      exact absurd ⟨hsp, hpe⟩ (hinv.forall hsymm hc1 hc2 he)

/-! ### Claim C8 -/

/-- C8: `listByConversation` returns exactly the conversation's messages in
insertion order (so a message appended before another is never listed after
it, and ties cannot reorder anything), and that order is strictly
increasing in creation timestamp, hence oldest first. -/
theorem c8_list_ordering (ops : List ChatOp) (cid : Nat) :
    (listByConversation (execOps ops) cid
       = (execOps ops).messages.filter (fun m => m.conversationId == cid)) ∧
    (listByConversation (execOps ops) cid).Pairwise
       (fun a b => a.createdAt < b.createdAt) ∧
    (∀ pre mid suf : List Message, ∀ a b : Message,
       (execOps ops).messages = pre ++ a :: mid ++ b :: suf →
       a.conversationId = cid → b.conversationId = cid →
       ∃ pre' mid' suf' : List Message,
         listByConversation (execOps ops) cid = pre' ++ a :: mid' ++ b :: suf') := by
  have ht := timeOrdered_execOps ops
  have hfilterPair : ((execOps ops).messages.filter
      (fun m => m.conversationId == cid)).Pairwise
      (fun a b => a.createdAt < b.createdAt) :=
    List.Pairwise.filter _ ht.1
  have heq : listByConversation (execOps ops) cid
      = (execOps ops).messages.filter (fun m => m.conversationId == cid) := by
    unfold listByConversation
    exact sortByCreatedAt_eq_self _ (hfilterPair.imp (fun hab => Nat.le_of_lt hab))
  refine ⟨heq, ?_, ?_⟩
  · rw [heq]; exact hfilterPair
  · intro pre mid suf a b hdecomp ha hb
    refine ⟨pre.filter (fun m => m.conversationId == cid),
            mid.filter (fun m => m.conversationId == cid),
            suf.filter (fun m => m.conversationId == cid), ?_⟩
    rw [heq, hdecomp]
    simp [List.filter_append, List.filter_cons, ha, hb]

/-- Witness for C8: in the concrete run, the two sent messages appear in
the listed sequence in their send order. -/
theorem c8_witness :
    ∃ pre' mid' suf' : List Message,
      listByConversation (execOps exOps) 0
        = pre' ++ ({ id := 0, conversationId := 0, sender := "A", content := "m1",
                     readBy := ["A"], createdAt := 1 } : Message)
            :: mid' ++ ({ id := 1, conversationId := 0, sender := "B", content := "m2",
                          readBy := ["B"], createdAt := 2 } : Message) :: suf' :=
  (c8_list_ordering exOps 0).2.2 [] [] [] _ _ (by decide) (by decide) (by decide)


/-! ### Claim C4 -/

lemma markReadApply_idem (u : String) (cid : Nat) (m : Message) :
    markReadApply u cid (markReadApply u cid m) = markReadApply u cid m := by
  unfold markReadApply
  by_cases h : (m.conversationId == cid && !(m.readBy.contains u)) = true
  · rw [if_pos h]
    have hc : ((m.readBy ++ [u]).contains u) = true := by simp
    simp [hc]
  · rw [if_neg h, if_neg h]

lemma markReadApply_cond_false (u : String) (cid : Nat) (m : Message) :
    ((markReadApply u cid m).conversationId == cid &&
     !((markReadApply u cid m).readBy.contains u)) = false := by
  unfold markReadApply
  by_cases h : (m.conversationId == cid && !(m.readBy.contains u)) = true
  · rw [if_pos h]
    have hc : ((m.readBy ++ [u]).contains u) = true := by simp
    simp [hc]
  · rw [if_neg h]
    simpa using h

/-- C4: on a store whose messages all carry their sender in `readBy` (the
invariant `senderRead_execOps` establishes for every reachable store), the
`updateMany` of `markMessagesAsRead` adds `uid` to `readBy` of exactly the
messages of the conversation not yet read by `uid` and not sent by `uid`,
leaves every other message and every other part of the store untouched,
answers the count of newly marked messages, and an immediate second
invocation mutates nothing and answers 0. -/
theorem c4_markRead_exact (s : ChatState) (cid : Nat) (uid : String)
    (hs : ∀ m ∈ s.messages, m.sender ∈ m.readBy) :
    ((markReadUpdate s cid uid).1
       = { s with messages := s.messages.map (fun m =>
           if m.conversationId = cid ∧ uid ∉ m.readBy ∧ m.sender ≠ uid
           then { m with readBy := m.readBy ++ [uid] } else m) }) ∧
    ((markReadUpdate s cid uid).2
       = (s.messages.filter (fun m =>
           decide (m.conversationId = cid ∧ uid ∉ m.readBy ∧ m.sender ≠ uid))).length) ∧
    (markReadUpdate (markReadUpdate s cid uid).1 cid uid
       = ((markReadUpdate s cid uid).1, 0)) := by
  have hpt : ∀ m ∈ s.messages, markReadApply uid cid m =
      (if m.conversationId = cid ∧ uid ∉ m.readBy ∧ m.sender ≠ uid
       then { m with readBy := m.readBy ++ [uid] } else m) := by
    intro m hm
    by_cases h1 : m.conversationId = cid
    · by_cases h2 : uid ∈ m.readBy
      · simp [markReadApply, h1, h2]
      · have h3 : m.sender ≠ uid := fun he => h2 (he ▸ hs m hm)
        simp [markReadApply, h1, h2, h3]
    · simp [markReadApply, h1]
  have hcond : ∀ m ∈ s.messages,
      (m.conversationId == cid && !(m.readBy.contains uid))
        = decide (m.conversationId = cid ∧ uid ∉ m.readBy ∧ m.sender ≠ uid) := by
    intro m hm
    by_cases h1 : m.conversationId = cid
    · by_cases h2 : uid ∈ m.readBy
      · simp [h1, h2]
      · have h3 : m.sender ≠ uid := fun he => h2 (he ▸ hs m hm)
        simp [h1, h2, h3]
    · simp [h1]
  refine ⟨?_, ?_, ?_⟩
  · show ({ s with messages := s.messages.map (markReadApply uid cid) } : ChatState) = _
    rw [List.map_congr_left hpt]
  · show (s.messages.filter
        (fun m => m.conversationId == cid && !(m.readBy.contains uid))).length = _
    rw [List.filter_congr hcond]
  · have hfix : (markReadUpdate s cid uid).1.messages.map (markReadApply uid cid)
        = (markReadUpdate s cid uid).1.messages := by
      show (s.messages.map (markReadApply uid cid)).map (markReadApply uid cid)
        = s.messages.map (markReadApply uid cid)
      rw [List.map_map]
      exact List.map_congr_left (fun m _ => markReadApply_idem uid cid m)
    have hempty : (markReadUpdate s cid uid).1.messages.filter
        (fun m => m.conversationId == cid && !(m.readBy.contains uid)) = [] := by
      rw [List.filter_eq_nil_iff]
      intro a ha
      obtain ⟨m0, _, rfl⟩ := List.mem_map.mp ha
      simp only [markReadApply_cond_false uid cid m0]
      exact Bool.false_ne_true
    refine Prod.ext ?_ ?_
    · show ({ (markReadUpdate s cid uid).1 with
          messages := (markReadUpdate s cid uid).1.messages.map (markReadApply uid cid) }
            : ChatState) = (markReadUpdate s cid uid).1
      rw [hfix]
    · show ((markReadUpdate s cid uid).1.messages.filter
          (fun m => m.conversationId == cid && !(m.readBy.contains uid))).length = 0
      rw [hempty]
      rfl

/-- Witness for C4: in the concrete run the invariant holds, and the second
`markRead` right after the first one mutates nothing and counts 0. -/
theorem c4_witness :
    (∀ m ∈ (execOps exOps).messages, m.sender ∈ m.readBy) ∧
    (markReadUpdate (markReadUpdate (execOps exOps) 0 "B").1 0 "B"
       = ((markReadUpdate (execOps exOps) 0 "B").1, 0)) :=
  ⟨by decide, (c4_markRead_exact (execOps exOps) 0 "B" (by decide)).2.2⟩


/-! ### Claim C7 -/

/-- C7: appending a message with empty content fails (ValidationError in
the source; `none` here) with nothing persisted — the socket handler
catches the error and performs no further step — and with non-empty
content creates the message with `readBy = [senderId]` and the
server-assigned timestamp, leaving everything else unchanged.  The
empty-content rejection is modelled from the spec, the Message model file
being absent from the sources. -/
theorem c7_append_validation (s : ChatState) (cid : Nat) (u content : String)
    (b : Bool) :
    (content = "" → messageCreate s cid u content = none ∧
       send_message s cid u content b = (s, [])) ∧
    (content ≠ "" → ∃ m s1, messageCreate s cid u content = some (m, s1) ∧
       m.readBy = [u] ∧ m.sender = u ∧ m.content = content ∧ m.createdAt = s.clock ∧
       s1.messages = s.messages ++ [m] ∧ s1.conversations = s.conversations) := by
  constructor
  · intro h
    have hmc : messageCreate s cid u content = none := by simp [messageCreate, h]
    exact ⟨hmc, by simp [send_message, hmc]⟩
  · intro h
    have hmc : messageCreate s cid u content
        = some (⟨s.nextMsgId, cid, u, content, [u], s.clock⟩,
            { s with
                messages := s.messages ++ [⟨s.nextMsgId, cid, u, content, [u], s.clock⟩]
                nextMsgId := s.nextMsgId + 1
                clock := s.clock + 1 }) := by
      simp [messageCreate, h]
    exact ⟨_, _, hmc, rfl, rfl, rfl, rfl, rfl, rfl⟩

/-- Witness for C7: both branches at concrete inputs. -/
theorem c7_witness :
    (messageCreate initialState 0 "u" "" = none ∧
       send_message initialState 0 "u" "" true = (initialState, [])) ∧
    (∃ m s1, messageCreate initialState 0 "u" "hi" = some (m, s1) ∧
       m.readBy = ["u"] ∧ m.sender = "u" ∧ m.content = "hi" ∧
       m.createdAt = initialState.clock ∧
       s1.messages = initialState.messages ++ [m] ∧
       s1.conversations = initialState.conversations) :=
  ⟨(c7_append_validation initialState 0 "u" "" true).1 rfl,
   (c7_append_validation initialState 0 "u" "hi" true).2 (by decide)⟩

/-! ### Claim C5 -/

/-- C5 counterexample: participants A and B; B sends "hi" (unread by A),
then A sends "yo".  A's send succeeded (two messages persisted), yet
`unreadCount(conv, A)` is 1, not 0 — the claim that the count is 0
immediately after any successful send is false. -/
theorem c5_counterexample :
    ((send_message (send_message (startConversation initialState "A" "B" none).2
        0 "B" "hi" true).1 0 "A" "yo" true).1.messages.length = 2) ∧
    unreadCount (send_message (send_message (startConversation initialState "A" "B" none).2
        0 "B" "hi" true).1 0 "A" "yo" true).1 0 "A" ≠ 0 := by
  decide

/-- C5 (amended): every message created by the send path carries its sender
in `readBy` from the moment of creation, and consequently a send never
adds to the sender's own unread count: `unreadCount` for the sender is
unchanged by the send (hence still 0 whenever it was 0 before the send,
e.g. on a fresh conversation). -/
theorem c5_self_read_amended (s : ChatState) (cid : Nat) (u content : String)
    (b : Bool) (h : content ≠ "") :
    ∃ m s1, messageCreate s cid u content = some (m, s1) ∧
      m.sender ∈ m.readBy ∧
      (send_message s cid u content b).1.messages = s.messages ++ [m] ∧
      (∀ cid' : Nat, unreadCount (send_message s cid u content b).1 cid' u
        = unreadCount s cid' u) := by
  have hmc : messageCreate s cid u content
      = some (⟨s.nextMsgId, cid, u, content, [u], s.clock⟩,
          { s with
              messages := s.messages ++ [⟨s.nextMsgId, cid, u, content, [u], s.clock⟩]
              nextMsgId := s.nextMsgId + 1
              clock := s.clock + 1 }) := by
    simp [messageCreate, h]
  have hmsgs : (send_message s cid u content b).1.messages
      = s.messages ++ [⟨s.nextMsgId, cid, u, content, [u], s.clock⟩] := by
    cases b <;> simp [send_message, hmc, updateLastMessage]
  refine ⟨_, _, hmc, List.mem_singleton.mpr rfl, hmsgs, ?_⟩
  intro cid'
  unfold unreadCount
  rw [hmsgs, List.filter_append]
  have hnil : [(⟨s.nextMsgId, cid, u, content, [u], s.clock⟩ : Message)].filter
      (fun m => m.conversationId == cid' && m.sender != u && !(m.readBy.contains u))
        = [] := by
    simp
  rw [hnil, List.append_nil]

/-- Witness for C5 (amended): the concrete send on the empty store. -/
theorem c5_witness :
    ∃ m s1, messageCreate initialState 0 "A" "hi" = some (m, s1) ∧
      m.sender ∈ m.readBy ∧
      (send_message initialState 0 "A" "hi" true).1.messages
        = initialState.messages ++ [m] ∧
      (∀ cid' : Nat, unreadCount (send_message initialState 0 "A" "hi" true).1 cid' "A"
        = unreadCount initialState cid' "A") :=
  c5_self_read_amended initialState 0 "A" "hi" true (by decide)

/-! ### Claim C1 -/

/-- C1 counterexample: a conversation between "a" and "b" exists; the
outsider "x" (not a participant) sends through the socket path.  The
operation does not fail: the message is appended and the broadcast to the
conversation room is emitted — contradicting the claim that a
non-participant sender fails with AuthorizationError with no message
appended. -/
theorem c1_counterexample :
    ("x" ∉ (startConversation initialState "a" "b" none).1.participants) ∧
    (send_message (startConversation initialState "a" "b" none).2
        0 "x" "hi" true).1.messages.length = 1 ∧
    SendEvent.broadcast 0
        { id := 0, conversationId := 0, sender := "x", content := "hi",
          readBy := ["x"], createdAt := 1 }
      ∈ (send_message (startConversation initialState "a" "b" none).2
          0 "x" "hi" true).2 := by
  decide

/-- C1 (amended): the socket `send_message` path performs no participant
check at all — for any senderId, participant or not, a send with non-empty
content appends the message, overwrites the conversation's `lastMessage`,
and issues the broadcast to the conversation room; no AuthorizationError
is ever raised on this path. -/
theorem c1_send_message_no_auth_check (s : ChatState) (cid : Nat)
    (u content : String) (h : content ≠ "") :
    ∃ m s1, messageCreate s cid u content = some (m, s1) ∧
      m.sender = u ∧ m.content = content ∧
      (send_message s cid u content true).1.messages = s.messages ++ [m] ∧
      SendEvent.broadcast cid m ∈ (send_message s cid u content true).2 ∧
      (∀ c ∈ (send_message s cid u content true).1.conversations, c.id = cid →
        c.lastMessage = some { content := content, sender := u,
                               createdAt := s.clock + 1 }) := by
  have hmc : messageCreate s cid u content
      = some (⟨s.nextMsgId, cid, u, content, [u], s.clock⟩,
          { s with
              messages := s.messages ++ [⟨s.nextMsgId, cid, u, content, [u], s.clock⟩]
              nextMsgId := s.nextMsgId + 1
              clock := s.clock + 1 }) := by
    simp [messageCreate, h]
  refine ⟨_, _, hmc, rfl, rfl, ?_, ?_, ?_⟩
  · simp [send_message, hmc, updateLastMessage]
  · simp [send_message, hmc]
  · intro c hc hcid
    simp [send_message, hmc, updateLastMessage] at hc
    obtain ⟨c0, hc0, hfc⟩ := hc
    subst hfc
    by_cases h0 : c0.id = cid
    · simp [h0]
    · rw [if_neg h0] at hcid
      exact absurd hcid h0

/-- Witness for C1 (amended): the outsider's send at the concrete input. -/
theorem c1_witness :
    ∃ m s1,
      messageCreate (startConversation initialState "a" "b" none).2 0 "x" "hi"
        = some (m, s1) ∧
      m.sender = "x" ∧ m.content = "hi" ∧
      (send_message (startConversation initialState "a" "b" none).2
          0 "x" "hi" true).1.messages
        = (startConversation initialState "a" "b" none).2.messages ++ [m] ∧
      SendEvent.broadcast 0 m
        ∈ (send_message (startConversation initialState "a" "b" none).2
            0 "x" "hi" true).2 ∧
      (∀ c ∈ (send_message (startConversation initialState "a" "b" none).2
          0 "x" "hi" true).1.conversations, c.id = 0 →
        c.lastMessage = some { content := "hi", sender := "x",
                               createdAt := (startConversation initialState
                                 "a" "b" none).2.clock + 1 }) :=
  c1_send_message_no_auth_check (startConversation initialState "a" "b" none).2
    0 "x" "hi" (by decide)


/-- Witness for C6: the two repeated calls on a concrete store, and the
uniqueness statement applied to the concrete conversation. -/
theorem c6_witness :
    ((startConversation (startConversation (execOps [ChatOp.start "A" "B" none])
        "A" "B" none).2 "A" "B" none).1.id
       = (startConversation (execOps [ChatOp.start "A" "B" none]) "A" "B" none).1.id) ∧
    (({ id := 0, participants := ["A", "B"], propertyId := none,
        lastMessage := some { content := "Conversation started", sender := "A",
                              createdAt := 0 } } : Conversation)
      = { id := 0, participants := ["A", "B"], propertyId := none,
          lastMessage := some { content := "Conversation started", sender := "A",
                                createdAt := 0 } }) :=
  ⟨(c6_idempotent_creation [ChatOp.start "A" "B" none] "A" "B").1.1,
   (c6_idempotent_creation [ChatOp.start "A" "B" none] "A" "B").2
     _ (by decide) _ (by decide) (fun _ => Iff.rfl) rfl⟩

/-! ### Claim C2 -/

/-- C2 counterexample: from the empty store,
`startConversation(A, B, L1)` then `startConversation(A, B, L2)` create two
distinct conversations, but `startConversation(A, B)` with no scope then
returns the first scoped conversation — not a third one distinct from
both. -/
theorem c2_counterexample :
    ((startConversation (startConversation initialState "A" "B" (some "L1")).2
        "A" "B" (some "L2")).1.id
      ≠ (startConversation initialState "A" "B" (some "L1")).1.id) ∧
    ((startConversation (startConversation (startConversation initialState
        "A" "B" (some "L1")).2 "A" "B" (some "L2")).2 "A" "B" none).1
      = (startConversation initialState "A" "B" (some "L1")).1) := by
  decide

lemma convMatches_none_of_mem (u r : String) (c : Conversation)
    (hu : u ∈ c.participants) (hr : r ∈ c.participants) :
    convMatches u r none c = true := by
  unfold convMatches
  rw [containsAll_pair, (contains_eq_true_iff _ _).mpr hu,
      (contains_eq_true_iff _ _).mpr hr]
  rfl

/-- C2 (amended): when no conversation between A and B exists yet, the two
scoped calls do create two distinct conversations, but the unscoped call
does not yield a third: the unscoped lookup matches conversations
regardless of scope, so it returns the first scoped conversation and
leaves the store unchanged. -/
theorem c2_scoped_disambiguation (s : ChatState) (A B L1 L2 : String)
    (hL : L1 ≠ L2) (h : findOneConv s A B none = none) :
    ((startConversation s A B (some L1)).1.id
       ≠ (startConversation (startConversation s A B (some L1)).2
           A B (some L2)).1.id) ∧
    ((startConversation (startConversation (startConversation s A B (some L1)).2
        A B (some L2)).2 A B none).1 = (startConversation s A B (some L1)).1) ∧
    ((startConversation (startConversation (startConversation s A B (some L1)).2
        A B (some L2)).2 A B none).2
      = (startConversation (startConversation s A B (some L1)).2 A B (some L2)).2) := by
  have h1 : findOneConv s A B (some L1) = none := findOneConv_none_scoped s A B h _
  have e1 : startConversation s A B (some L1)
      = (⟨s.nextConvId, [A, B], some L1, some ⟨"Conversation started", A, s.clock⟩⟩,
         ⟨s.conversations ++ [⟨s.nextConvId, [A, B], some L1,
             some ⟨"Conversation started", A, s.clock⟩⟩],
          s.messages, s.nextConvId + 1, s.nextMsgId, s.clock + 1⟩) := by
    simp [startConversation, h1]
  have ha2 : s.conversations.find? (convMatches A B (some L2)) = none :=
    findOneConv_none_scoped s A B h (some L2)
  have hb2 : convMatches A B (some L2)
      ⟨s.nextConvId, [A, B], some L1, some ⟨"Conversation started", A, s.clock⟩⟩
        = false := by
    simp [convMatches, containsAll, hL]
  have h2 : findOneConv
      (⟨s.conversations ++ [⟨s.nextConvId, [A, B], some L1,
          some ⟨"Conversation started", A, s.clock⟩⟩],
        s.messages, s.nextConvId + 1, s.nextMsgId, s.clock + 1⟩ : ChatState)
      A B (some L2) = none := by
    simp [findOneConv, ha2, hb2]
  have e2 : startConversation
      (⟨s.conversations ++ [⟨s.nextConvId, [A, B], some L1,
          some ⟨"Conversation started", A, s.clock⟩⟩],
        s.messages, s.nextConvId + 1, s.nextMsgId, s.clock + 1⟩ : ChatState)
      A B (some L2)
      = (⟨s.nextConvId + 1, [A, B], some L2,
          some ⟨"Conversation started", A, s.clock + 1⟩⟩,
         ⟨s.conversations ++
            [⟨s.nextConvId, [A, B], some L1,
              some ⟨"Conversation started", A, s.clock⟩⟩,
             ⟨s.nextConvId + 1, [A, B], some L2,
              some ⟨"Conversation started", A, s.clock + 1⟩⟩],
          s.messages, s.nextConvId + 1 + 1, s.nextMsgId, s.clock + 1 + 1⟩) := by
    simp [startConversation, h2]
  have ha3 : s.conversations.find? (convMatches A B none) = none := h
  have hb3 : convMatches A B none
      ⟨s.nextConvId, [A, B], some L1, some ⟨"Conversation started", A, s.clock⟩⟩
        = true := by
    apply convMatches_none_of_mem <;> simp
  have h3 : findOneConv
      (⟨s.conversations ++
          [⟨s.nextConvId, [A, B], some L1,
            some ⟨"Conversation started", A, s.clock⟩⟩,
           ⟨s.nextConvId + 1, [A, B], some L2,
            some ⟨"Conversation started", A, s.clock + 1⟩⟩],
        s.messages, s.nextConvId + 1 + 1, s.nextMsgId, s.clock + 1 + 1⟩ : ChatState)
      A B none
      = some ⟨s.nextConvId, [A, B], some L1,
          some ⟨"Conversation started", A, s.clock⟩⟩ := by
    simp [findOneConv, ha3, hb3]
  have e3 : startConversation
      (⟨s.conversations ++
          [⟨s.nextConvId, [A, B], some L1,
            some ⟨"Conversation started", A, s.clock⟩⟩,
           ⟨s.nextConvId + 1, [A, B], some L2,
            some ⟨"Conversation started", A, s.clock + 1⟩⟩],
        s.messages, s.nextConvId + 1 + 1, s.nextMsgId, s.clock + 1 + 1⟩ : ChatState)
      A B none
      = (⟨s.nextConvId, [A, B], some L1,
          some ⟨"Conversation started", A, s.clock⟩⟩,
         ⟨s.conversations ++
            [⟨s.nextConvId, [A, B], some L1,
              some ⟨"Conversation started", A, s.clock⟩⟩,
             ⟨s.nextConvId + 1, [A, B], some L2,
              some ⟨"Conversation started", A, s.clock + 1⟩⟩],
          s.messages, s.nextConvId + 1 + 1, s.nextMsgId, s.clock + 1 + 1⟩) := by
    rw [startConversation, h3]
  rw [e1]
  show (_ ≠ (startConversation
      (⟨s.conversations ++ [⟨s.nextConvId, [A, B], some L1,
          some ⟨"Conversation started", A, s.clock⟩⟩],
        s.messages, s.nextConvId + 1, s.nextMsgId, s.clock + 1⟩ : ChatState)
      A B (some L2)).1.id) ∧ _
  rw [e2]
  show (_ ∧ ((startConversation
      (⟨s.conversations ++
          [⟨s.nextConvId, [A, B], some L1,
            some ⟨"Conversation started", A, s.clock⟩⟩,
           ⟨s.nextConvId + 1, [A, B], some L2,
            some ⟨"Conversation started", A, s.clock + 1⟩⟩],
        s.messages, s.nextConvId + 1 + 1, s.nextMsgId, s.clock + 1 + 1⟩ : ChatState)
      A B none).1 = _) ∧ _)
  rw [e3]
  refine ⟨?_, rfl, rfl⟩
  simp

/-- Witness for C2 (amended): the concrete three-call run. -/
theorem c2_witness :
    ((startConversation initialState "A" "B" (some "L1")).1.id
       ≠ (startConversation (startConversation initialState "A" "B" (some "L1")).2
           "A" "B" (some "L2")).1.id) ∧
    ((startConversation (startConversation (startConversation initialState
        "A" "B" (some "L1")).2 "A" "B" (some "L2")).2 "A" "B" none).1
      = (startConversation initialState "A" "B" (some "L1")).1) ∧
    ((startConversation (startConversation (startConversation initialState
        "A" "B" (some "L1")).2 "A" "B" (some "L2")).2 "A" "B" none).2
      = (startConversation (startConversation initialState "A" "B" (some "L1")).2
          "A" "B" (some "L2")).2) :=
  c2_scoped_disambiguation initialState "A" "B" "L1" "L2" (by decide) rfl

/-! ### Claim C3 -/

/-- C3 counterexample: creating a fresh conversation appends nothing to the
Message Store — there is no synthetic "conversation started" message, and
`listByConversation` on the fresh conversation is empty. -/
theorem c3_counterexample :
    (startConversation initialState "A" "B" none).2.messages = [] ∧
    listByConversation (startConversation initialState "A" "B" none).2
      (startConversation initialState "A" "B" none).1.id = [] := by
  decide

/-- C3 (amended): on first creation `startConversation` appends no message
at all to the Message Store — it only seeds the new conversation's
denormalized `lastMessage` summary with the synthetic snapshot
"Conversation started" — so every `listByConversation` result, including
the fresh conversation's (empty) one, is exactly what it was before the
call. -/
theorem c3_no_system_message (s : ChatState) (A B : String) (p : Option String)
    (h : findOneConv s A B p = none) :
    (startConversation s A B p).2.messages = s.messages ∧
    (startConversation s A B p).1.lastMessage
      = some { content := "Conversation started", sender := A,
               createdAt := s.clock } ∧
    ∀ cid : Nat, listByConversation (startConversation s A B p).2 cid
      = listByConversation s cid := by
  simp only [startConversation, h]
  exact ⟨trivial, trivial, fun _ => rfl⟩

/-- Witness for C3 (amended): the fresh creation from the empty store. -/
theorem c3_witness :
    (startConversation initialState "A" "B" none).2.messages
      = initialState.messages ∧
    (startConversation initialState "A" "B" none).1.lastMessage
      = some { content := "Conversation started", sender := "A",
               createdAt := initialState.clock } ∧
    ∀ cid : Nat, listByConversation (startConversation initialState "A" "B" none).2 cid
      = listByConversation initialState cid :=
  c3_no_system_message initialState "A" "B" none rfl

/-! ### Claim C9 -/

/-- C9: the persisted state of a send is the same whether or not the
broadcast succeeds (a broadcast failure never fails the enclosing send once
persistence happened), a failed append yields no events and no state change
at all, and any broadcast in the trace happens strictly after — and only
with — a successful durable append of the same message, which is then in
the store. -/
theorem c9_broadcast_after_persist (s : ChatState) (cid : Nat)
    (u content : String) (b : Bool) :
    ((send_message s cid u content false).1 = (send_message s cid u content true).1) ∧
    (messageCreate s cid u content = none → send_message s cid u content b = (s, [])) ∧
    (∀ r m, SendEvent.broadcast r m ∈ (send_message s cid u content b).2 →
       r = cid ∧
       (send_message s cid u content b).2
         = [SendEvent.append m,
            SendEvent.updateLast cid { content := content, sender := u,
                                       createdAt := s.clock + 1 },
            SendEvent.broadcast cid m] ∧
       (∃ s1, messageCreate s cid u content = some (m, s1)) ∧
       m ∈ (send_message s cid u content b).1.messages) := by
  by_cases hct : content = ""
  · have hmc : messageCreate s cid u content = none := by simp [messageCreate, hct]
    refine ⟨?_, ?_, ?_⟩
    · simp [send_message, hmc]
    · intro _
      simp [send_message, hmc]
    · intro r m hmem
      simp [send_message, hmc] at hmem
  · have hmc : messageCreate s cid u content
        = some (⟨s.nextMsgId, cid, u, content, [u], s.clock⟩,
            { s with
                messages := s.messages ++ [⟨s.nextMsgId, cid, u, content, [u], s.clock⟩]
                nextMsgId := s.nextMsgId + 1
                clock := s.clock + 1 }) := by
      simp [messageCreate, hct]
    refine ⟨?_, ?_, ?_⟩
    · simp [send_message, hmc]
    · intro hnone
      rw [hmc] at hnone
      exact (Option.some_ne_none _ hnone).elim
    · intro r m hmem
      cases b with
      | false => simp [send_message, hmc] at hmem
      | true =>
          simp [send_message, hmc] at hmem
          obtain ⟨hr, hm⟩ := hmem
          subst hr
          subst hm
          refine ⟨rfl, ?_, ⟨_, hmc⟩, ?_⟩
          · simp [send_message, hmc]
          · simp [send_message, hmc, updateLastMessage]

/-- Witness for C9: in the concrete send, the broadcast is in the trace and
the broadcast message is durably stored. -/
theorem c9_witness :
    SendEvent.broadcast 0
        ({ id := 0, conversationId := 0, sender := "A", content := "hi",
           readBy := ["A"], createdAt := 0 } : Message)
      ∈ (send_message initialState 0 "A" "hi" true).2 ∧
    ({ id := 0, conversationId := 0, sender := "A", content := "hi",
       readBy := ["A"], createdAt := 0 } : Message)
      ∈ (send_message initialState 0 "A" "hi" true).1.messages :=
  ⟨by decide,
   ((c9_broadcast_after_persist initialState 0 "A" "hi" true).2.2 0
     { id := 0, conversationId := 0, sender := "A", content := "hi",
       readBy := ["A"], createdAt := 0 } (by decide)).2.2.2⟩

/-! ### Claim C10 -/

/-- C10: for the request-form reads `getMessages` and `markMessagesAsRead`,
whenever no conversation with the requested id has the caller among its
participants — which covers both a nonexistent conversation id and an
existing conversation the caller does not belong to — the caller receives
exactly the structured 404 failure 'Conversation not found or
unauthorized', identical in both causes, no messages are returned, and the
store is left untouched. -/
theorem c10_uniform_404 (s : ChatState) (cid : Nat) (uid : String)
    (h : ∀ c ∈ s.conversations, c.id = cid → uid ∉ c.participants) :
    getMessages s cid uid
      = ApiResult.err 404 "Conversation not found or unauthorized" ∧
    markMessagesAsRead s cid uid
      = (s, ApiResult.err 404 "Conversation not found or unauthorized") := by
  have hnone : findConvAuth s cid uid = none := by
    unfold findConvAuth
    rw [List.find?_eq_none]
    intro c hc hcond
    rw [Bool.and_eq_true] at hcond
    have h1 : c.id = cid := by simpa using hcond.1
    have h2 : uid ∈ c.participants := by simpa using hcond.2
    exact h c hc h1 h2
  exact ⟨by simp [getMessages, hnone], by simp [markMessagesAsRead, hnone]⟩

/-- Witness for C10: a nonexistent conversation id and a non-participant
caller on an existing conversation receive the identical 404 failure, with
no mutation. -/
theorem c10_witness :
    (getMessages (execOps exOps) 5 "A"
       = ApiResult.err 404 "Conversation not found or unauthorized") ∧
    (getMessages (execOps exOps) 0 "x"
       = ApiResult.err 404 "Conversation not found or unauthorized") ∧
    (markMessagesAsRead (execOps exOps) 0 "x"
       = ((execOps exOps), ApiResult.err 404 "Conversation not found or unauthorized")) :=
  ⟨(c10_uniform_404 (execOps exOps) 5 "A" (by decide)).1,
   (c10_uniform_404 (execOps exOps) 0 "x" (by decide)).1,
   (c10_uniform_404 (execOps exOps) 0 "x" (by decide)).2⟩

end Gharbeti
